import Mathlib

/-!
# chat-app: in-memory storage and request handlers

A shallow embedding of `internal/models/models.go`, `internal/storage/storage.go`
and the handlers of `cmd/server/main.go`.

Modelling conventions:

* Go strings are `String`; `time.Time` values are clock readings in `Nat`.
* A Go `map[string]V` is an association list with at most one entry per key
  (`GoMap`).  Iteration order of a Go map is unspecified; the model iterates in
  list order, and no theorem below depends on that order.
* `*models.Chat` and `*models.Message` are never written through after their
  creation, so pointers are modelled by the values they point to; a nil pointer
  or nil slice is `none`, a nil `error` is `none`.
* `uuid.New().String()` and `time.Now()` are external: every storage operation
  that calls them takes the generated identifier and the clock reading as
  arguments.
* The `sync.RWMutex` is not modelled: every operation is one atomic step on the
  storage state.
-/

namespace ChatApp

/-! ## internal/models -/

/-- Message represents a chat message. -/
structure Message where
  ID : String
  ChatID : String
  Username : String
  Content : String
  Timestamp : Nat
  deriving DecidableEq, Repr

/-- Chat represents a chat room. -/
structure Chat where
  ID : String
  Name : String
  CreatedAt : Nat
  deriving DecidableEq, Repr

/-- CreateChatRequest represents a request to create a new chat. -/
structure CreateChatRequest where
  Name : String
  deriving DecidableEq, Repr

/-- SendMessageRequest represents a request to send a message. -/
structure SendMessageRequest where
  Username : String
  Content : String
  deriving DecidableEq, Repr

/-- Go's `error` interface; `none : Option Error` is the nil error. -/
abbrev Error := String

/-! ## Go maps with string keys -/

/-- A Go `map[string]V`, as the list of its entries. -/
abbrev GoMap (V : Type) := List (String × V)

namespace GoMap

/-- The comma-ok lookup `v, ok := m[k]`, with `none` for `ok = false`. -/
def get {V : Type} : GoMap V → String → Option V
  | [], _ => none
  | (k1, v1) :: m, k => if k1 = k then some v1 else get m k

/-- The assignment `m[k] = v`: overwrites the entry of `k` or adds one. -/
def set {V : Type} : GoMap V → String → V → GoMap V
  | [], k, v => [(k, v)]
  | (k1, v1) :: m, k, v => if k1 = k then (k, v) :: m else (k1, v1) :: set m k v

/-- The keys in iteration order. -/
def keys {V : Type} (m : GoMap V) : List String := m.map Prod.fst

/-- The values in iteration order (`for _, v := range m`). -/
def values {V : Type} (m : GoMap V) : List V := m.map Prod.snd

end GoMap

/-! ## internal/storage -/

/-- Storage is an in-memory storage for chats and messages. -/
structure Storage where
  chats : GoMap Chat
  messages : GoMap (List Message)
  deriving DecidableEq, Repr

/-- NewStorage creates a new storage instance. -/
def NewStorage : Storage :=
  { chats := [], messages := [] }

/-- CreateChat creates a new chat; `newID` is `uuid.New().String()` and `now`
is `time.Now()`.  Returns the new state, the chat and the (nil) error. -/
def CreateChat (s : Storage) (name : String) (newID : String) (now : Nat) :
    Storage × Chat × Option Error :=
  let chat : Chat := { ID := newID, Name := name, CreatedAt := now }
  ({ chats := s.chats.set chat.ID chat, messages := s.messages.set chat.ID [] },
    chat, none)

/-- GetChat retrieves a chat by ID: `chat, exists := s.chats[chatID]`. -/
def GetChat (s : Storage) (chatID : String) : Option Chat × Bool :=
  match s.chats.get chatID with
  | some chat => (some chat, true)
  | none => (none, false)

/-- ListChats returns all chats. -/
def ListChats (s : Storage) : List Chat :=
  s.chats.values

/-- AddMessage adds a message to a chat.  Returns the new state, the message
(nil when the chat does not exist) and the error (always nil). -/
def AddMessage (s : Storage) (chatID username content : String)
    (newID : String) (now : Nat) : Storage × Option Message × Option Error :=
  match s.chats.get chatID with
  | none => (s, none, none)
  | some _ =>
    let message : Message :=
      { ID := newID, ChatID := chatID, Username := username, Content := content,
        Timestamp := now }
    ({ s with messages :=
        s.messages.set chatID (((s.messages.get chatID).getD []) ++ [message]) },
      some message, none)

/-- GetMessages retrieves all messages for a chat: `(nil, false)` when the chat
has no message slice, otherwise a copy of the slice and `true`. -/
def GetMessages (s : Storage) (chatID : String) : Option (List Message) × Bool :=
  match s.messages.get chatID with
  | none => (none, false)
  | some messages => (some messages, true)

/-! ## Sequences of storage calls -/

/-- One call on the storage, with the values the external generators gave it. -/
inductive Op where
  | createChat (name newID : String) (now : Nat)
  | getChat (chatID : String)
  | listChats
  | addMessage (chatID username content newID : String) (now : Nat)
  | getMessages (chatID : String)
  deriving DecidableEq, Repr

/-- What a call returned to its caller. -/
inductive Ret where
  | createChat (chat : Chat) (err : Option Error)
  | getChat (chat : Option Chat) (found : Bool)
  | listChats (chats : List Chat)
  | addMessage (message : Option Message) (err : Option Error)
  | getMessages (messages : Option (List Message)) (found : Bool)
  deriving DecidableEq, Repr

/-- Performs one call: the state after it and what it returned. -/
def step (s : Storage) : Op → Storage × Ret
  | .createChat name newID now =>
    let r := CreateChat s name newID now
    (r.1, .createChat r.2.1 r.2.2)
  | .getChat chatID =>
    let r := GetChat s chatID
    (s, .getChat r.1 r.2)
  | .listChats => (s, .listChats (ListChats s))
  | .addMessage chatID username content newID now =>
    let r := AddMessage s chatID username content newID now
    (r.1, .addMessage r.2.1 r.2.2)
  | .getMessages chatID =>
    let r := GetMessages s chatID
    (s, .getMessages r.1 r.2)

/-- The state after a sequence of calls. -/
def run (s : Storage) : List Op → Storage
  | [] => s
  | op :: ops => run (step s op).1 ops

/-- The values returned by a sequence of calls, in call order. -/
def returns (s : Storage) : List Op → List Ret
  | [] => []
  | op :: ops => (step s op).2 :: returns (step s op).1 ops

/-- A state the storage can be in: some sequence of calls from `NewStorage`. -/
def Reachable (s : Storage) : Prop :=
  ∃ ops : List Op, run NewStorage ops = s

/-- The identifiers the generator gave to the `CreateChat` calls of a sequence,
in call order: the ids of the rooms those calls returned. -/
def createdIDs : List Op → List String
  | [] => []
  | .createChat _ newID _ :: ops => newID :: createdIDs ops
  | _ :: ops => createdIDs ops

/-- Whether the call is an `AddMessage` on room `r`. -/
def Op.addsTo (r : String) : Op → Bool
  | .addMessage chatID _ _ _ _ => decide (chatID = r)
  | _ => false

/-- Whether the call is a `CreateChat` that is given the identifier `r`. -/
def Op.creates (r : String) : Op → Bool
  | .createChat _ newID _ => decide (newID = r)
  | _ => false

/-- The message a call handed back when it is a successful `AddMessage` on
room `r` (none otherwise). -/
def appendedBy (r : String) : Op → Ret → List Message
  | .addMessage chatID _ _ _ _, .addMessage (some m) _ =>
    if chatID = r then [m] else []
  | _, _ => []

/-- The messages returned by the successful `AddMessage` calls on room `r` in a
sequence of calls started in state `s`, in call order. -/
def appended (r : String) (s : Storage) : List Op → List Message
  | [] => []
  | op :: ops => appendedBy r op (step s op).2 ++ appended r (step s op).1 ops

/-- The registry and the message slices have the same keys. -/
def SameKeys (s : Storage) : Prop :=
  ∀ x : String, s.chats.get x = none ↔ s.messages.get x = none

/-- Every chat is registered under its own identifier. -/
def KeyedByID (s : Storage) : Prop :=
  ∀ e ∈ s.chats, e.2.ID = e.1

/-- A store with one room: `CreateChat("General")` on a new storage, the
generator giving the identifier `r1` at clock reading 1. -/
def demoStore : Storage :=
  (CreateChat NewStorage "General" "r1" 1).1

/-- Every message stored in the slice of a room carries that room's id. -/
def TaggedByRoom (s : Storage) : Prop :=
  ∀ (r : String) (ms : List Message), s.messages.get r = some ms →
    ∀ m ∈ ms, m.ChatID = r

/-- Whether the call, when it is a `CreateChat`, is given an identifier that
is not in the registry of `s`. -/
def Op.fresh (s : Storage) : Op → Bool
  | .createChat _ newID _ => !(GetChat s newID).2
  | _ => true

/-- Whether every `CreateChat` call of the sequence, started in `s`, is given
an identifier not in the registry at the time of the call. -/
def freshIDs (s : Storage) : List Op → Bool
  | [] => true
  | op :: ops => Op.fresh s op && freshIDs (step s op).1 ops

/-- Whether the call is one of the three lookups `GetChat`, `ListChats`,
`GetMessages`. -/
def Op.readOnly : Op → Bool
  | .getChat _ => true
  | .listChats => true
  | .getMessages _ => true
  | _ => false

/-! ## cmd/server: the response writer -/

/-- What a handler hands to the response body: the line written by
`http.Error`, or the value given to the JSON encoder. -/
inductive Payload where
  | text (msg : String)
  | chat (c : Chat)
  | chats (cs : List Chat)
  | message (m : Message)
  | messages (ms : List Message)
  deriving DecidableEq, Repr

/-- The `http.ResponseWriter` as the handler drives it: the status line once it
has been written, and the payloads handed to `Write` in order.  Header fields
(`Content-Type`) are not modelled. -/
structure ResponseWriter where
  status : Option Nat
  body : List Payload
  deriving DecidableEq, Repr

def StatusOK : Nat := 200
def StatusCreated : Nat := 201
def StatusBadRequest : Nat := 400
def StatusNotFound : Nat := 404
def StatusInternalServerError : Nat := 500

namespace ResponseWriter

/-- A writer nothing has been written to. -/
def new : ResponseWriter := { status := none, body := [] }

/-- The `WriteHeader` call: the first one fixes the status, later ones are
ignored. -/
def WriteHeader (w : ResponseWriter) (code : Nat) : ResponseWriter :=
  match w.status with
  | some _ => w
  | none => { w with status := some code }

/-- The `Write` call: writes the status line as 200 if none was written, then
the payload. -/
def Write (w : ResponseWriter) (p : Payload) : ResponseWriter :=
  let w1 := w.WriteHeader StatusOK
  { w1 with body := w1.body ++ [p] }

/-- The status code the client is sent. -/
def code (w : ResponseWriter) : Nat := w.status.getD StatusOK

end ResponseWriter

/-- The library call `http.Error(w, msg, code)`: status line, then the message
and a newline. -/
def httpError (w : ResponseWriter) (msg : String) (code : Nat) : ResponseWriter :=
  (w.WriteHeader code).Write (.text (msg ++ "\n"))

/-- The call `json.NewEncoder(w).Encode(v)`.  Values of the model types always
marshal, so the only error it can report is that of the underlying `Write`;
`writeErr` says whether that write reported one. -/
def encode (w : ResponseWriter) (v : Payload) (writeErr : Bool) :
    ResponseWriter × Bool :=
  (w.Write v, writeErr)

/-! ## cmd/server: the handlers

Each handler takes the storage state, the path variable, the result of decoding
the request body (`none` when `Decode` reports an error; an absent JSON field
decodes to the empty string), the values of the external generators, and
whether the encoder reports an error.  It returns the storage state afterwards
and the response writer. -/

def handleListChats (s : Storage) (writeErr : Bool) : Storage × ResponseWriter :=
  let chats := ListChats s
  let w := ResponseWriter.new
  match encode w (.chats chats) writeErr with
  | (w, true) => (s, httpError w "Failed to encode response" StatusInternalServerError)
  | (w, false) => (s, w)

def handleCreateChat (s : Storage) (body : Option CreateChatRequest)
    (newID : String) (now : Nat) (writeErr : Bool) : Storage × ResponseWriter :=
  let w := ResponseWriter.new
  match body with
  | none => (s, httpError w "Invalid request body" StatusBadRequest)
  | some req =>
    if req.Name = "" then
      (s, httpError w "Chat name is required" StatusBadRequest)
    else
      match CreateChat s req.Name newID now with
      | (s1, _, some _) => (s1, httpError w "Failed to create chat" StatusInternalServerError)
      | (s1, chat, none) =>
        let w := w.WriteHeader StatusCreated
        match encode w (.chat chat) writeErr with
        | (w, true) => (s1, httpError w "Failed to encode response" StatusInternalServerError)
        | (w, false) => (s1, w)

def handleGetMessages (s : Storage) (chatID : String) (writeErr : Bool) :
    Storage × ResponseWriter :=
  let w := ResponseWriter.new
  match GetMessages s chatID with
  | (_, false) => (s, httpError w "Chat not found" StatusNotFound)
  | (messages, true) =>
    match encode w (.messages (messages.getD [])) writeErr with
    | (w, true) => (s, httpError w "Failed to encode response" StatusInternalServerError)
    | (w, false) => (s, w)

def handleSendMessage (s : Storage) (chatID : String)
    (body : Option SendMessageRequest) (newID : String) (now : Nat)
    (writeErr : Bool) : Storage × ResponseWriter :=
  let w := ResponseWriter.new
  match body with
  | none => (s, httpError w "Invalid request body" StatusBadRequest)
  | some req =>
    if req.Username = "" ∨ req.Content = "" then
      (s, httpError w "Username and content are required" StatusBadRequest)
    else
      match AddMessage s chatID req.Username req.Content newID now with
      | (s1, some message, none) =>
        let w := w.WriteHeader StatusCreated
        match encode w (.message message) writeErr with
        | (w, true) => (s1, httpError w "Failed to encode response" StatusInternalServerError)
        | (w, false) => (s1, w)
      | (s1, _, _) => (s1, httpError w "Chat not found" StatusNotFound)

/-! ## Facts about Go maps -/

namespace GoMap

theorem get_set_self {V : Type} (m : GoMap V) (k : String) (v : V) :
    get (set m k v) k = some v := by
  induction m with
  | nil => simp [set, get]
  | cons e m ih =>
    obtain ⟨k1, v1⟩ := e
    by_cases h : k1 = k
    · simp [set, get, h]
    · simp [set, get, h, ih]

theorem get_set_ne {V : Type} (m : GoMap V) (k k2 : String) (v : V) (h : k2 ≠ k) :
    get (set m k v) k2 = get m k2 := by
  induction m with
  | nil => simp [set, get, h.symm]
  | cons e m ih =>
    obtain ⟨k1, v1⟩ := e
    by_cases h1 : k1 = k
    · subst h1
      simp [set, get, h.symm]
    · by_cases h2 : k1 = k2
      · subst h2
        simp [set, get, h1]
      · simp [set, get, h1, h2, ih]

theorem get_eq_none_iff {V : Type} (m : GoMap V) (k : String) :
    get m k = none ↔ k ∉ keys m := by
  induction m with
  | nil => simp [get, keys]
  | cons e m ih =>
    obtain ⟨k1, v1⟩ := e
    by_cases h : k1 = k
    · simp [get, keys, h]
    · have h2 : ¬ k = k1 := fun e => h e.symm
      simpa [get, keys, h, h2] using ih

theorem set_of_get_none {V : Type} (m : GoMap V) (k : String) (v : V)
    (h : get m k = none) : set m k v = m ++ [(k, v)] := by
  induction m with
  | nil => simp [set]
  | cons e m ih =>
    obtain ⟨k1, v1⟩ := e
    by_cases h1 : k1 = k
    · simp [get, h1] at h
    · simp only [get, h1, if_false] at h
      simp [set, h1, ih h]

theorem keys_set_of_get_some {V : Type} (m : GoMap V) (k : String) (v v0 : V)
    (h : get m k = some v0) : keys (set m k v) = keys m := by
  induction m with
  | nil => simp [get] at h
  | cons e m ih =>
    obtain ⟨k1, v1⟩ := e
    by_cases h1 : k1 = k
    · simp [set, keys, h1]
    · simp only [get, h1, if_false] at h
      have := ih h
      simp only [keys] at this
      simp [set, keys, h1, this]

theorem get_some_mem {V : Type} (m : GoMap V) (k : String) (v : V)
    (h : get m k = some v) : (k, v) ∈ m := by
  induction m with
  | nil => simp [get] at h
  | cons e m ih =>
    obtain ⟨k1, v1⟩ := e
    by_cases h1 : k1 = k
    · simp [get, h1] at h
      simp [h1, h]
    · simp only [get, h1, if_false] at h
      exact List.mem_cons_of_mem _ (ih h)

end GoMap

/-! ## Facts about single calls -/

theorem step_chats_get_of_ne (s : Storage) (op : Op) (x : String)
    (h : Op.creates x op = false) : (step s op).1.chats.get x = s.chats.get x := by
  cases op with
  | createChat name newID now =>
    have hne : x ≠ newID := by
      intro e
      simp [Op.creates, e] at h
    simp [step, CreateChat, GoMap.get_set_ne _ _ _ _ hne]
  | getChat chatID => simp [step]
  | listChats => simp [step]
  | addMessage chatID username content newID now =>
    simp only [step, AddMessage]
    cases s.chats.get chatID <;> rfl
  | getMessages chatID => simp [step]

theorem step_messages_get_of_ne (s : Storage) (op : Op) (x : String)
    (hc : Op.creates x op = false) (ha : Op.addsTo x op = false) :
    (step s op).1.messages.get x = s.messages.get x := by
  cases op with
  | createChat name newID now =>
    have hne : x ≠ newID := by
      intro e
      simp [Op.creates, e] at hc
    simp [step, CreateChat, GoMap.get_set_ne _ _ _ _ hne]
  | getChat chatID => simp [step]
  | listChats => simp [step]
  | addMessage chatID username content newID now =>
    have hne : x ≠ chatID := by
      intro e
      simp [Op.addsTo, e] at ha
    simp only [step, AddMessage]
    cases s.chats.get chatID with
    | none => rfl
    | some c => simp [GoMap.get_set_ne _ _ _ _ hne]
  | getMessages chatID => simp [step]

theorem step_sameKeys (s : Storage) (op : Op) (h : SameKeys s) :
    SameKeys (step s op).1 := by
  intro x
  cases op with
  | createChat name newID now =>
    by_cases hx : x = newID
    · subst hx
      simp [step, CreateChat, GoMap.get_set_self]
    · simpa [step, CreateChat, GoMap.get_set_ne _ _ _ _ hx] using h x
  | getChat chatID => simpa [step] using h x
  | listChats => simpa [step] using h x
  | addMessage chatID username content newID now =>
    simp only [step, AddMessage]
    cases hc : s.chats.get chatID with
    | none => exact h x
    | some c =>
      by_cases hx : x = chatID
      · subst hx
        simp [GoMap.get_set_self, hc]
      · simpa [GoMap.get_set_ne _ _ _ _ hx] using h x
  | getMessages chatID => simpa [step] using h x

theorem run_sameKeys (ops : List Op) (s : Storage) (h : SameKeys s) :
    SameKeys (run s ops) := by
  induction ops generalizing s with
  | nil => exact h
  | cons op ops ih => exact ih _ (step_sameKeys s op h)

theorem reachable_sameKeys (s : Storage) (h : Reachable s) : SameKeys s := by
  obtain ⟨ops, rfl⟩ := h
  exact run_sameKeys ops NewStorage (fun x => by simp [NewStorage, GoMap.get])

theorem creates_eq_false_of_not_mem (op : Op) (ops : List Op) (x : String)
    (h : x ∉ createdIDs (op :: ops)) :
    Op.creates x op = false ∧ x ∉ createdIDs ops := by
  cases op with
  | createChat name newID now =>
    simp only [createdIDs, List.mem_cons, not_or] at h
    have hne : ¬ newID = x := fun e => h.1 e.symm
    exact ⟨by simp [Op.creates, hne], h.2⟩
  | getChat chatID => exact ⟨rfl, h⟩
  | listChats => exact ⟨rfl, h⟩
  | addMessage chatID username content newID now => exact ⟨rfl, h⟩
  | getMessages chatID => exact ⟨rfl, h⟩

theorem run_chats_get_of_not_created (ops : List Op) (s : Storage) (x : String)
    (h : x ∉ createdIDs ops) : (run s ops).chats.get x = s.chats.get x := by
  induction ops generalizing s with
  | nil => rfl
  | cons op ops ih =>
    obtain ⟨h1, h2⟩ := creates_eq_false_of_not_mem op ops x h
    simp only [run]
    rw [ih _ h2, step_chats_get_of_ne s op x h1]

theorem step_messages_get_none (s : Storage) (op : Op) (x : String)
    (hc : Op.creates x op = false) (h1 : s.chats.get x = none)
    (h2 : s.messages.get x = none) : (step s op).1.messages.get x = none := by
  by_cases ha : Op.addsTo x op = true
  · cases op with
    | addMessage chatID username content newID now =>
      have hx : chatID = x := by simpa [Op.addsTo] using ha
      subst hx
      simp [step, AddMessage, h1, h2]
    | createChat name newID now => simp [Op.addsTo] at ha
    | getChat chatID => simp [Op.addsTo] at ha
    | listChats => simp [Op.addsTo] at ha
    | getMessages chatID => simp [Op.addsTo] at ha
  · rw [step_messages_get_of_ne s op x hc (by simpa using ha), h2]

theorem run_messages_get_none (ops : List Op) (s : Storage) (x : String)
    (h : x ∉ createdIDs ops) (h1 : s.chats.get x = none)
    (h2 : s.messages.get x = none) : (run s ops).messages.get x = none := by
  induction ops generalizing s with
  | nil => exact h2
  | cons op ops ih =>
    obtain ⟨hc, hr⟩ := creates_eq_false_of_not_mem op ops x h
    simp only [run]
    apply ih _ hr
    · rw [step_chats_get_of_ne s op x hc, h1]
    · exact step_messages_get_none s op x hc h1 h2

theorem run_messages_get_empty (ops : List Op) (s : Storage) (x : String)
    (h : s.messages.get x = some [])
    (hops : ∀ op ∈ ops, Op.addsTo x op = false) :
    (run s ops).messages.get x = some [] := by
  induction ops generalizing s with
  | nil => exact h
  | cons op ops ih =>
    simp only [run]
    apply ih _ _ (fun o ho => hops o (List.mem_cons_of_mem _ ho))
    by_cases hc : Op.creates x op = true
    · cases op with
      | createChat name newID now =>
        have hx : newID = x := by simpa [Op.creates] using hc
        subst hx
        simp [step, CreateChat, GoMap.get_set_self]
      | getChat chatID => simp [Op.creates] at hc
      | listChats => simp [Op.creates] at hc
      | addMessage chatID username content newID now => simp [Op.creates] at hc
      | getMessages chatID => simp [Op.creates] at hc
    · rw [step_messages_get_of_ne s op x (by simpa using hc)
        (hops op (List.mem_cons_self _ _)), h]

theorem step_appendedBy (s : Storage) (op : Op) (r : String) (L : List Message)
    (hc : s.chats.get r ≠ none) (hm : s.messages.get r = some L)
    (hop : Op.creates r op = false) :
    (step s op).1.chats.get r ≠ none ∧
    (step s op).1.messages.get r = some (L ++ appendedBy r op (step s op).2) ∧
    (appendedBy r op (step s op).2).length = [op].countP (Op.addsTo r) := by
  refine ⟨by rw [step_chats_get_of_ne s op r hop]; exact hc, ?_⟩
  cases op with
  | createChat name newID now =>
    have h := step_messages_get_of_ne s (.createChat name newID now) r hop rfl
    refine ⟨?_, ?_⟩
    · rw [h, hm]
      simp [appendedBy, step]
    · simp [appendedBy, step, Op.addsTo]
  | getChat chatID => simp [step, appendedBy, hm, Op.addsTo]
  | listChats => simp [step, appendedBy, hm, Op.addsTo]
  | getMessages chatID => simp [step, appendedBy, hm, Op.addsTo]
  | addMessage chatID username content newID now =>
    by_cases hx : chatID = r
    · subst hx
      cases hg : s.chats.get chatID with
      | none => exact absurd hg hc
      | some c0 =>
        simp [step, AddMessage, hg, hm, appendedBy, GoMap.get_set_self, Op.addsTo]
    · have hne : r ≠ chatID := fun e => hx e.symm
      cases hg : s.chats.get chatID with
      | none => simp [step, AddMessage, hg, hm, appendedBy, hx, Op.addsTo]
      | some c0 =>
        simp [step, AddMessage, hg, hm, appendedBy, hx, Op.addsTo,
          GoMap.get_set_ne _ _ _ _ hne]

theorem run_messages_get_append (ops : List Op) (s : Storage) (r : String)
    (L : List Message) (hc : s.chats.get r ≠ none) (hm : s.messages.get r = some L)
    (hops : ∀ op ∈ ops, Op.creates r op = false) :
    (run s ops).messages.get r = some (L ++ appended r s ops) ∧
    (appended r s ops).length = ops.countP (Op.addsTo r) := by
  induction ops generalizing s L with
  | nil => simp [run, appended, hm]
  | cons op ops ih =>
    obtain ⟨h1, h2, h3⟩ :=
      step_appendedBy s op r L hc hm (hops op (List.mem_cons_self _ _))
    obtain ⟨h4, h5⟩ := ih (step s op).1 _ h1 h2
      (fun o ho => hops o (List.mem_cons_of_mem _ ho))
    constructor
    · simp only [run, appended]
      rw [h4, List.append_assoc]
    · simp only [appended, List.length_append, h5, h3]
      rw [List.countP_cons, List.countP_cons, List.countP_nil]
      omega

theorem step_keyedByID (s : Storage) (op : Op) (h : KeyedByID s) :
    KeyedByID (step s op).1 := by
  cases op with
  | createChat name newID now =>
    have key : ∀ (m : GoMap Chat), (∀ e ∈ m, e.2.ID = e.1) →
        ∀ e ∈ GoMap.set m newID ⟨newID, name, now⟩, e.2.ID = e.1 := by
      intro m
      induction m with
      | nil =>
        intro _ e he
        simp only [GoMap.set, List.mem_singleton] at he
        subst he
        rfl
      | cons e0 m ih =>
        intro hm e he
        obtain ⟨k1, v1⟩ := e0
        by_cases hk : k1 = newID
        · simp only [GoMap.set, hk, if_true, List.mem_cons] at he
          rcases he with he | he
          · subst he
            rfl
          · exact hm e (List.mem_cons_of_mem _ he)
        · simp only [GoMap.set, hk, if_false, List.mem_cons] at he
          rcases he with he | he
          · subst he
            exact hm _ (List.mem_cons_self _ _)
          · exact ih (fun e1 h1 => hm e1 (List.mem_cons_of_mem _ h1)) e he
    exact key s.chats h
  | getChat chatID => exact h
  | listChats => exact h
  | addMessage chatID username content newID now =>
    simp only [step, AddMessage]
    cases s.chats.get chatID <;> exact h
  | getMessages chatID => exact h

theorem run_keyedByID (ops : List Op) (s : Storage) (h : KeyedByID s) :
    KeyedByID (run s ops) := by
  induction ops generalizing s with
  | nil => exact h
  | cons op ops ih => exact ih _ (step_keyedByID s op h)

theorem values_map_ID (s : Storage) (h : KeyedByID s) :
    (ListChats s).map Chat.ID = s.chats.keys := by
  simp only [ListChats, GoMap.values, GoMap.keys, List.map_map]
  exact List.map_congr_left (fun e he => h e he)

theorem run_chats_keys (ops : List Op) (s : Storage)
    (h : (s.chats.keys ++ createdIDs ops).Nodup) :
    (run s ops).chats.keys = s.chats.keys ++ createdIDs ops := by
  induction ops generalizing s with
  | nil => simp [run, createdIDs]
  | cons op ops ih =>
    cases op with
    | createChat name newID now =>
      simp only [createdIDs] at h
      have hnot : newID ∉ s.chats.keys := by
        intro hmem
        exact (List.nodup_append.mp h).2.2 hmem (List.mem_cons_self _ _)
      have hset := GoMap.set_of_get_none s.chats newID ⟨newID, name, now⟩
        ((GoMap.get_eq_none_iff _ _).mpr hnot)
      have hk : (step s (.createChat name newID now)).1.chats.keys
          = s.chats.keys ++ [newID] := by
        simp [step, CreateChat, hset, GoMap.keys]
      simp only [run, createdIDs]
      rw [ih _ (by rw [hk]; simpa using h), hk]
      simp
    | getChat chatID => exact ih s h
    | listChats => exact ih s h
    | getMessages chatID => exact ih s h
    | addMessage chatID username content newID now =>
      have hk : (step s (.addMessage chatID username content newID now)).1.chats
          = s.chats := by
        simp only [step, AddMessage]
        cases s.chats.get chatID <;> rfl
      simp only [run, createdIDs]
      rw [ih _ (by rw [hk]; exact h), hk]

theorem run_chats_get_returned (ops : List Op) (s : Storage) (c : Chat)
    (e : Option Error) (h : (createdIDs ops).Nodup)
    (hc : Ret.createChat c e ∈ returns s ops) :
    (run s ops).chats.get c.ID = some c := by
  induction ops generalizing s with
  | nil => simp [returns] at hc
  | cons op ops ih =>
    cases op with
    | createChat name newID now =>
      simp only [createdIDs, List.nodup_cons] at h
      simp only [returns, List.mem_cons] at hc
      rcases hc with hc | hc
      · have hce : c = ⟨newID, name, now⟩ := by
          have h2 : c = ⟨newID, name, now⟩ ∧ e = none := by
            simpa [step, CreateChat] using hc
          exact h2.1
        subst hce
        simp only [run]
        rw [run_chats_get_of_not_created ops _ newID h.1]
        simp [step, CreateChat, GoMap.get_set_self]
      · exact ih _ h.2 hc
    | getChat chatID =>
      simp only [returns, List.mem_cons] at hc
      rcases hc with hc | hc
      · simp [step] at hc
      · exact ih _ h hc
    | listChats =>
      simp only [returns, List.mem_cons] at hc
      rcases hc with hc | hc
      · simp [step] at hc
      · exact ih _ h hc
    | getMessages chatID =>
      simp only [returns, List.mem_cons] at hc
      rcases hc with hc | hc
      · simp [step] at hc
      · exact ih _ h hc
    | addMessage chatID username content newID now =>
      simp only [returns, List.mem_cons] at hc
      rcases hc with hc | hc
      · simp [step] at hc
      · exact ih _ h hc

/-! ## The storage contract -/

/-- C1: in every store state (so in every reachable one), for every room id `r`
present in it and every username and content, `AddMessage` returns a non-nil
message carrying `r`, the username and the content, with a nil error, and
`GetMessages(r)` right afterwards reports the room as existing and returns a
non-empty sequence whose last element is that message. -/
theorem addMessage_existing_room (s : Storage) (r u c newID : String) (now : Nat)
    (hr : (GetChat s r).2 = true) :
    ∃ m : Message,
      (AddMessage s r u c newID now).2.1 = some m ∧
      (AddMessage s r u c newID now).2.2 = none ∧
      m.ChatID = r ∧ m.Username = u ∧ m.Content = c ∧
      ∃ L : List Message,
        GetMessages (AddMessage s r u c newID now).1 r = (some L, true) ∧
        L ≠ [] ∧ L.getLast? = some m := by
  cases hc : s.chats.get r with
  | none => simp [GetChat, hc] at hr
  | some c0 =>
    refine ⟨⟨newID, r, u, c, now⟩, ?_, ?_, rfl, rfl, rfl, ?_⟩
    · simp [AddMessage, hc]
    · simp [AddMessage, hc]
    · refine ⟨(s.messages.get r).getD [] ++ [⟨newID, r, u, c, now⟩], ?_, ?_, ?_⟩
      · simp [AddMessage, hc, GetMessages, GoMap.get_set_self]
      · simp
      · simp

/-- Witness of C1 on the one-room store. -/
theorem addMessage_existing_room_witness :
    (GetChat demoStore "r1").2 = true ∧
    ∃ m : Message,
      (AddMessage demoStore "r1" "alice" "hi" "m1" 2).2.1 = some m ∧
      (AddMessage demoStore "r1" "alice" "hi" "m1" 2).2.2 = none ∧
      m.ChatID = "r1" ∧ m.Username = "alice" ∧ m.Content = "hi" ∧
      ∃ L : List Message,
        GetMessages (AddMessage demoStore "r1" "alice" "hi" "m1" 2).1 "r1" = (some L, true) ∧
        L ≠ [] ∧ L.getLast? = some m :=
  ⟨by decide, addMessage_existing_room demoStore "r1" "alice" "hi" "m1" 2 (by decide)⟩

/-- C2: in every store state, for every id `r` that is not the id of a room,
`AddMessage` returns a nil message with a nil error and leaves the store as it
was: the same state, hence the same registry and the same `GetMessages` result
for every room. -/
theorem addMessage_unknown_room (s : Storage) (r u c newID : String) (now : Nat)
    (hr : (GetChat s r).2 = false) :
    (AddMessage s r u c newID now).2.1 = none ∧
    (AddMessage s r u c newID now).2.2 = none ∧
    (AddMessage s r u c newID now).1 = s ∧
    ListChats (AddMessage s r u c newID now).1 = ListChats s ∧
    (∀ x : String, GetChat (AddMessage s r u c newID now).1 x = GetChat s x) ∧
    (∀ x : String,
      GetMessages (AddMessage s r u c newID now).1 x = GetMessages s x) := by
  cases hc : s.chats.get r with
  | some c0 => simp [GetChat, hc] at hr
  | none => simp [AddMessage, hc]

/-- Witness of C2: posting to an unknown id on the one-room store. -/
theorem addMessage_unknown_room_witness :
    (GetChat demoStore "nonexistent").2 = false ∧
    (AddMessage demoStore "nonexistent" "x" "y" "m1" 2).2.1 = none ∧
    (AddMessage demoStore "nonexistent" "x" "y" "m1" 2).2.2 = none ∧
    (AddMessage demoStore "nonexistent" "x" "y" "m1" 2).1 = demoStore ∧
    ListChats (AddMessage demoStore "nonexistent" "x" "y" "m1" 2).1
      = ListChats demoStore ∧
    (∀ x : String,
      GetChat (AddMessage demoStore "nonexistent" "x" "y" "m1" 2).1 x
        = GetChat demoStore x) ∧
    (∀ x : String,
      GetMessages (AddMessage demoStore "nonexistent" "x" "y" "m1" 2).1 x
        = GetMessages demoStore x) :=
  ⟨by decide, addMessage_unknown_room demoStore "nonexistent" "x" "y" "m1" 2 (by decide)⟩

/-- C3: in every store state, when `CreateChat(name)` returns room `c` (whether
or not its id was in use), `GetMessages(c.ID)` issued after any calls none of
which is an `AddMessage` to `c` reports exists = true and returns a sequence
of length 0; and in every reachable state a room that exists is never reported
as not found by `GetMessages`. -/
theorem getMessages_fresh_room (s : Storage) (name newID : String) (now : Nat)
    (ops : List Op) (hops : ∀ op ∈ ops, Op.addsTo newID op = false) :
    (∃ L : List Message,
      GetMessages (run (CreateChat s name newID now).1 ops)
        (CreateChat s name newID now).2.1.ID = (some L, true) ∧ L.length = 0) ∧
    (∀ (t : Storage) (r : String), Reachable t → (GetChat t r).2 = true →
      (GetMessages t r).2 = true) := by
  constructor
  · refine ⟨[], ?_, rfl⟩
    have h0 : (CreateChat s name newID now).1.messages.get newID = some [] := by
      simp [CreateChat, GoMap.get_set_self]
    have h1 := run_messages_get_empty ops _ newID h0 hops
    show GetMessages (run (CreateChat s name newID now).1 ops) newID = (some [], true)
    simp [GetMessages, h1]
  · intro t r ht hr
    have hk := reachable_sameKeys t ht r
    cases hc : t.chats.get r with
    | none => simp [GetChat, hc] at hr
    | some c0 =>
      cases hm : t.messages.get r with
      | none =>
        have := hk.mpr hm
        simp [hc] at this
      | some ms => simp [GetMessages, hm]

/-- Witness of C3: a second room created on the one-room store, read after a
post to the first room. -/
theorem getMessages_fresh_room_witness :
    (∀ op ∈ [Op.addMessage "r1" "alice" "hi" "m1" 3, Op.getChat "r2"],
      Op.addsTo "r2" op = false) ∧
    ((∃ L : List Message,
      GetMessages (run (CreateChat demoStore "Empty" "r2" 2).1
          [Op.addMessage "r1" "alice" "hi" "m1" 3, Op.getChat "r2"])
        (CreateChat demoStore "Empty" "r2" 2).2.1.ID = (some L, true) ∧
        L.length = 0) ∧
    (∀ (t : Storage) (r : String), Reachable t → (GetChat t r).2 = true →
      (GetMessages t r).2 = true)) :=
  ⟨by decide,
    getMessages_fresh_room demoStore "Empty" "r2" 2
      [Op.addMessage "r1" "alice" "hi" "m1" 3, Op.getChat "r2"] (by decide)⟩

/-- C4: after any sequence of calls from `NewStorage`, for every id `x` that no
`CreateChat` call of the sequence returned as the id of its room,
`GetMessages(x)` reports not found, also when `AddMessage(x, ...)` was
attempted in the sequence. -/
theorem getMessages_never_created (ops : List Op) (x : String)
    (hx : x ∉ createdIDs ops) :
    GetMessages (run NewStorage ops) x = (none, false) := by
  have h := run_messages_get_none ops NewStorage x hx
    (by simp [NewStorage, GoMap.get]) (by simp [NewStorage, GoMap.get])
  simp [GetMessages, h]

/-- Witness of C4: a post to an id that was never created, then a read. -/
theorem getMessages_never_created_witness :
    "nonexistent" ∉ createdIDs
      [Op.createChat "General" "r1" 1, Op.addMessage "nonexistent" "x" "y" "m1" 2] ∧
    GetMessages (run NewStorage
      [Op.createChat "General" "r1" 1, Op.addMessage "nonexistent" "x" "y" "m1" 2])
      "nonexistent" = (none, false) :=
  ⟨by decide,
    getMessages_never_created
      [Op.createChat "General" "r1" 1, Op.addMessage "nonexistent" "x" "y" "m1" 2]
      "nonexistent" (by decide)⟩

/-- C5: `GetMessages` returns a room's messages in insertion order.  For every
existing room `r` whose `GetMessages` result is `L`, and every sequence of
calls in which no `CreateChat` is given the id `r` (so the `CreateChat` calls
have fresh ids; posts to other rooms and reads may be interleaved freely),
`GetMessages(r)` afterwards returns exactly `L` followed by the messages that
the `AddMessage` calls on `r` returned, in call order, and every one of those
calls contributed one message. -/
theorem getMessages_insertion_order (s : Storage) (r : String) (L : List Message)
    (ops : List Op) (hr : (GetChat s r).2 = true)
    (hL : GetMessages s r = (some L, true))
    (hops : ∀ op ∈ ops, Op.creates r op = false) :
    GetMessages (run s ops) r = (some (L ++ appended r s ops), true) ∧
    (appended r s ops).length = ops.countP (Op.addsTo r) := by
  have hc : s.chats.get r ≠ none := by
    intro h
    simp [GetChat, h] at hr
  have hm : s.messages.get r = some L := by
    cases h : s.messages.get r with
    | none => simp [GetMessages, h] at hL
    | some ms => simpa [GetMessages, h] using hL
  obtain ⟨h1, h2⟩ := run_messages_get_append ops s r L hc hm hops
  exact ⟨by simp [GetMessages, h1], h2⟩

/-- Witness of C5: create "General", post (alice, hi) then (bob, hey); the
room then holds the two returned messages in that order. -/
theorem getMessages_insertion_order_witness :
    (GetChat demoStore "r1").2 = true ∧
    GetMessages demoStore "r1" = (some [], true) ∧
    (∀ op ∈ [Op.addMessage "r1" "alice" "hi" "m1" 2,
        Op.addMessage "r1" "bob" "hey" "m2" 3], Op.creates "r1" op = false) ∧
    appended "r1" demoStore [Op.addMessage "r1" "alice" "hi" "m1" 2,
        Op.addMessage "r1" "bob" "hey" "m2" 3]
      = [⟨"m1", "r1", "alice", "hi", 2⟩, ⟨"m2", "r1", "bob", "hey", 3⟩] ∧
    (GetMessages (run demoStore [Op.addMessage "r1" "alice" "hi" "m1" 2,
        Op.addMessage "r1" "bob" "hey" "m2" 3]) "r1"
      = (some ([] ++ appended "r1" demoStore [Op.addMessage "r1" "alice" "hi" "m1" 2,
        Op.addMessage "r1" "bob" "hey" "m2" 3]), true) ∧
    (appended "r1" demoStore [Op.addMessage "r1" "alice" "hi" "m1" 2,
        Op.addMessage "r1" "bob" "hey" "m2" 3]).length
      = [Op.addMessage "r1" "alice" "hi" "m1" 2,
        Op.addMessage "r1" "bob" "hey" "m2" 3].countP (Op.addsTo "r1")) :=
  ⟨by decide, by decide, by decide, by decide,
    getMessages_insertion_order demoStore "r1" []
      [Op.addMessage "r1" "alice" "hi" "m1" 2, Op.addMessage "r1" "bob" "hey" "m2" 3]
      (by decide) (by decide) (by decide)⟩

/-- C6: in every store state and for every name, the empty string included,
`CreateChat` returns a nil error and a room whose `Name` is the given name and
whose `ID` is the identifier supplied by the generator (so it is empty exactly
when the generator's output is); the room is registered under that id without
any check of the name. -/
theorem createChat_always_succeeds (s : Storage) (name newID : String) (now : Nat) :
    (CreateChat s name newID now).2.2 = none ∧
    (CreateChat s name newID now).2.1.Name = name ∧
    (CreateChat s name newID now).2.1.ID = newID ∧
    ((CreateChat s name newID now).2.1.ID = "" ↔ newID = "") ∧
    GetChat (CreateChat s name newID now).1 newID
      = (some (CreateChat s name newID now).2.1, true) ∧
    (CreateChat s "" newID now).2.2 = none ∧
    (CreateChat s "" newID now).2.1.Name = "" := by
  simp [CreateChat, GetChat, GoMap.get_set_self]

/-- C7: `ListChats` on `NewStorage` is empty, and after any sequence of calls
from `NewStorage` whose `CreateChat` calls were given pairwise distinct ids,
`ListChats` returns exactly as many rooms as there were `CreateChat` calls,
none of them twice; every room returned by one of those calls is listed and
`GetChat` on its id reports exists = true with that very room; `GetChat` on an
id that is not registered (no call created it, or no listed room carries it)
reports exists = false. -/
theorem listChats_after_creations (ops : List Op) (h : (createdIDs ops).Nodup) :
    ListChats NewStorage = [] ∧
    (ListChats (run NewStorage ops)).length = (createdIDs ops).length ∧
    (ListChats (run NewStorage ops)).Nodup ∧
    (∀ (c : Chat) (e : Option Error), Ret.createChat c e ∈ returns NewStorage ops →
      c ∈ ListChats (run NewStorage ops) ∧
      GetChat (run NewStorage ops) c.ID = (some c, true)) ∧
    (∀ x : String, x ∉ createdIDs ops →
      GetChat (run NewStorage ops) x = (none, false)) ∧
    (∀ x : String, (∀ c ∈ ListChats (run NewStorage ops), c.ID ≠ x) →
      GetChat (run NewStorage ops) x = (none, false)) := by
  have hkeys : (run NewStorage ops).chats.keys = createdIDs ops := by
    have := run_chats_keys ops NewStorage (by simpa [NewStorage, GoMap.keys] using h)
    simpa [NewStorage, GoMap.keys] using this
  have hid : KeyedByID (run NewStorage ops) :=
    run_keyedByID ops NewStorage (fun e he => by simp [NewStorage] at he)
  have hmap := values_map_ID _ hid
  have hnone : ∀ x : String, x ∉ createdIDs ops →
      GetChat (run NewStorage ops) x = (none, false) := by
    intro x hx
    have hg : (run NewStorage ops).chats.get x = none :=
      (GoMap.get_eq_none_iff _ _).mpr (by rw [hkeys]; exact hx)
    simp [GetChat, hg]
  refine ⟨rfl, ?_, ?_, ?_, hnone, ?_⟩
  · have := congrArg List.length hmap
    simpa [hkeys] using this
  · apply List.Nodup.of_map Chat.ID
    rw [hmap, hkeys]
    exact h
  · intro c e hc
    have hg := run_chats_get_returned ops NewStorage c e h hc
    refine ⟨?_, by simp [GetChat, hg]⟩
    have hmem := GoMap.get_some_mem _ _ _ hg
    exact List.mem_map.mpr ⟨(c.ID, c), hmem, rfl⟩
  · intro x hx
    apply hnone
    intro hmem
    rw [← hkeys, ← hmap] at hmem
    obtain ⟨c, hc, hcx⟩ := List.mem_map.mp hmem
    exact hx c hc hcx

/-- Witness of C7: three rooms created, with a post and a read in between. -/
theorem listChats_after_creations_witness :
    (createdIDs [Op.createChat "Chat 1" "a" 1, Op.addMessage "a" "u" "hi" "m" 2,
      Op.createChat "Chat 2" "b" 3, Op.listChats, Op.createChat "Chat 3" "c" 4]).Nodup ∧
    (ListChats (run NewStorage [Op.createChat "Chat 1" "a" 1,
      Op.addMessage "a" "u" "hi" "m" 2, Op.createChat "Chat 2" "b" 3, Op.listChats,
      Op.createChat "Chat 3" "c" 4])).length = 3 ∧
    (ListChats (run NewStorage [Op.createChat "Chat 1" "a" 1,
      Op.addMessage "a" "u" "hi" "m" 2, Op.createChat "Chat 2" "b" 3, Op.listChats,
      Op.createChat "Chat 3" "c" 4])).Nodup :=
  ⟨by decide, by decide,
    (listChats_after_creations [Op.createChat "Chat 1" "a" 1,
      Op.addMessage "a" "u" "hi" "m" 2, Op.createChat "Chat 2" "b" 3, Op.listChats,
      Op.createChat "Chat 3" "c" 4] (by decide)).2.2.1⟩

/-! ## The request-layer contract -/

/-- C8: in every store state, for every room id in the path (existing or not)
and every decoded post-message request whose username or content is empty,
`handleSendMessage` answers 400 and not 404, the store is the same afterwards
(so every room has the same messages), and the outcome does not depend on the
values the id generator and the clock would give: `AddMessage` is not
reached. -/
theorem handleSendMessage_empty_field (s : Storage) (chatID : String)
    (req : SendMessageRequest) (newID : String) (now : Nat) (writeErr : Bool)
    (h : req.Username = "" ∨ req.Content = "") :
    (handleSendMessage s chatID (some req) newID now writeErr).2.status
      = some StatusBadRequest ∧
    (handleSendMessage s chatID (some req) newID now writeErr).2.code = 400 ∧
    (handleSendMessage s chatID (some req) newID now writeErr).1 = s ∧
    (∀ x : String,
      GetMessages (handleSendMessage s chatID (some req) newID now writeErr).1 x
        = GetMessages s x) ∧
    (∀ (id2 : String) (now2 : Nat),
      handleSendMessage s chatID (some req) id2 now2 writeErr
        = handleSendMessage s chatID (some req) newID now writeErr) := by
  simp [handleSendMessage, h, httpError, ResponseWriter.Write,
    ResponseWriter.WriteHeader, ResponseWriter.new, ResponseWriter.code,
    StatusBadRequest]

/-- Witness of C8: an empty username on an unknown room gives 400. -/
theorem handleSendMessage_empty_field_witness :
    ((⟨"", "Hello"⟩ : SendMessageRequest).Username = "" ∨
      (⟨"", "Hello"⟩ : SendMessageRequest).Content = "") ∧
    (GetChat demoStore "nonexistent").2 = false ∧
    (handleSendMessage demoStore "nonexistent" (some ⟨"", "Hello"⟩) "m1" 2 false).2.status
      = some StatusBadRequest :=
  ⟨by decide, by decide,
    (handleSendMessage_empty_field demoStore "nonexistent" ⟨"", "Hello"⟩ "m1" 2 false
      (by decide)).1⟩

/-- C9: in every store state a create-room request with the empty name is
answered 400 by `handleCreateChat` and the store is unchanged, whereas the
store's `CreateChat("")` itself succeeds and registers a room with an empty
name; for every non-empty name the handler performs `CreateChat` and answers
201 with the created room, whose `Name` is the request's name. -/
theorem handleCreateChat_validation (s : Storage) (name newID : String) (now : Nat)
    (writeErr : Bool) (hname : name ≠ "") :
    ((handleCreateChat s (some ⟨""⟩) newID now writeErr).2.status
        = some StatusBadRequest ∧
      (handleCreateChat s (some ⟨""⟩) newID now writeErr).1 = s ∧
      ListChats (handleCreateChat s (some ⟨""⟩) newID now writeErr).1
        = ListChats s) ∧
    ((CreateChat s "" newID now).2.2 = none ∧
      (CreateChat s "" newID now).2.1.Name = "" ∧
      GetChat (CreateChat s "" newID now).1 newID
        = (some (CreateChat s "" newID now).2.1, true)) ∧
    ((handleCreateChat s (some ⟨name⟩) newID now writeErr).1
        = (CreateChat s name newID now).1 ∧
      (handleCreateChat s (some ⟨name⟩) newID now writeErr).2.status
        = some StatusCreated ∧
      (handleCreateChat s (some ⟨name⟩) newID now writeErr).2.code = 201 ∧
      (handleCreateChat s (some ⟨name⟩) newID now writeErr).2.body.head?
        = some (.chat (CreateChat s name newID now).2.1) ∧
      (CreateChat s name newID now).2.1.Name = name) := by
  refine ⟨?_, ?_, ?_⟩
  · simp [handleCreateChat, httpError, ResponseWriter.Write,
      ResponseWriter.WriteHeader, ResponseWriter.new]
  · simp [CreateChat, GetChat, GoMap.get_set_self]
  · cases writeErr <;>
      simp [handleCreateChat, hname, CreateChat, encode, httpError,
        ResponseWriter.Write, ResponseWriter.WriteHeader, ResponseWriter.new,
        ResponseWriter.code, StatusCreated]

/-- Witness of C9: "Test Chat" is created with 201. -/
theorem handleCreateChat_validation_witness :
    "Test Chat" ≠ "" ∧
    (handleCreateChat NewStorage (some ⟨"Test Chat"⟩) "r1" 1 false).2.status
      = some StatusCreated ∧
    (handleCreateChat NewStorage (some ⟨""⟩) "r1" 1 false).2.status
      = some StatusBadRequest :=
  ⟨by decide,
    (handleCreateChat_validation NewStorage "Test Chat" "r1" 1 false (by decide)).2.2.2.1,
    (handleCreateChat_validation NewStorage "Test Chat" "r1" 1 false (by decide)).1.1⟩

/-- C10: the request layer surfaces the store's not-found exactly.  In every
reachable store state and for every room id `r`: (i) `handleGetMessages`
answers 404 if and only if `r` is not a room of the store, and otherwise
answers 200 with the store's message sequence for `r`, leaving the store as it
was; (ii) for every post-message request with non-empty username and content,
`handleSendMessage` answers 404 if and only if `r` is not a room of the store,
and otherwise answers 201 with the message `AddMessage` appended, the store
being the one `AddMessage` left; it never answers 400 for such a request. -/
theorem handlers_surface_not_found (s : Storage) (r : String) (writeErr : Bool)
    (req : SendMessageRequest) (newID : String) (now : Nat)
    (hs : Reachable s) (hu : req.Username ≠ "") (hc : req.Content ≠ "") :
    (((handleGetMessages s r writeErr).2.status = some StatusNotFound ↔
        (GetChat s r).2 = false) ∧
      ((GetChat s r).2 = true →
        (handleGetMessages s r writeErr).2.status = some StatusOK ∧
        (handleGetMessages s r writeErr).1 = s ∧
        ∃ ms : List Message, GetMessages s r = (some ms, true) ∧
          (handleGetMessages s r writeErr).2.body.head? = some (.messages ms))) ∧
    (((handleSendMessage s r (some req) newID now writeErr).2.status
          = some StatusNotFound ↔ (GetChat s r).2 = false) ∧
      ((GetChat s r).2 = true →
        (handleSendMessage s r (some req) newID now writeErr).2.status
          = some StatusCreated ∧
        (handleSendMessage s r (some req) newID now writeErr).1
          = (AddMessage s r req.Username req.Content newID now).1 ∧
        ∃ m : Message,
          (AddMessage s r req.Username req.Content newID now).2.1 = some m ∧
          (handleSendMessage s r (some req) newID now writeErr).2.body.head?
            = some (.message m)) ∧
      (handleSendMessage s r (some req) newID now writeErr).2.status
        ≠ some StatusBadRequest) := by
  have hk := reachable_sameKeys s hs r
  constructor
  · cases hg : s.chats.get r with
    | none =>
      have hm : s.messages.get r = none := hk.mp hg
      simp [handleGetMessages, GetMessages, GetChat, hg, hm, httpError,
        ResponseWriter.Write, ResponseWriter.WriteHeader, ResponseWriter.new]
    | some c0 =>
      cases hm : s.messages.get r with
      | none =>
        have := hk.mpr hm
        simp [hg] at this
      | some ms =>
        cases writeErr <;>
          simp [handleGetMessages, GetMessages, GetChat, hg, hm, httpError, encode,
            ResponseWriter.Write, ResponseWriter.WriteHeader, ResponseWriter.new,
            StatusOK, StatusNotFound]
  · have hv : ¬ (req.Username = "" ∨ req.Content = "") := by
      intro h
      rcases h with h | h
      · exact hu h
      · exact hc h
    cases hg : s.chats.get r with
    | none =>
      simp [handleSendMessage, hv, AddMessage, GetChat, hg, httpError,
        ResponseWriter.Write, ResponseWriter.WriteHeader, ResponseWriter.new,
        StatusNotFound, StatusBadRequest]
    | some c0 =>
      cases writeErr <;>
        simp [handleSendMessage, hv, AddMessage, GetChat, hg, httpError, encode,
          ResponseWriter.Write, ResponseWriter.WriteHeader, ResponseWriter.new,
          StatusNotFound, StatusBadRequest, StatusCreated]

/-- Witness of C10 on the one-room store: reading and posting to the room
give 200 and 201, the same calls on an unknown id give 404. -/
theorem handlers_surface_not_found_witness :
    Reachable demoStore ∧
    (⟨"testuser", "Hello"⟩ : SendMessageRequest).Username ≠ "" ∧
    (⟨"testuser", "Hello"⟩ : SendMessageRequest).Content ≠ "" ∧
    (handleGetMessages demoStore "r1" false).2.status = some StatusOK ∧
    (handleSendMessage demoStore "r1" (some ⟨"testuser", "Hello"⟩) "m1" 2 false).2.status
      = some StatusCreated ∧
    (handleGetMessages demoStore "nonexistent" false).2.status = some StatusNotFound ∧
    (handleSendMessage demoStore "nonexistent" (some ⟨"testuser", "Hello"⟩) "m1" 2
      false).2.status = some StatusNotFound :=
  ⟨⟨[Op.createChat "General" "r1" 1], rfl⟩, by decide, by decide,
    ((handlers_surface_not_found demoStore "r1" false ⟨"testuser", "Hello"⟩ "m1" 2
      ⟨[Op.createChat "General" "r1" 1], rfl⟩ (by decide) (by decide)).1.2
        (by decide)).1,
    ((handlers_surface_not_found demoStore "r1" false ⟨"testuser", "Hello"⟩ "m1" 2
      ⟨[Op.createChat "General" "r1" 1], rfl⟩ (by decide) (by decide)).2.2.1
        (by decide)).1,
    (handlers_surface_not_found demoStore "nonexistent" false ⟨"testuser", "Hello"⟩
      "m1" 2 ⟨[Op.createChat "General" "r1" 1], rfl⟩ (by decide) (by decide)).1.1.mpr
        (by decide),
    (handlers_surface_not_found demoStore "nonexistent" false ⟨"testuser", "Hello"⟩
      "m1" 2 ⟨[Op.createChat "General" "r1" 1], rfl⟩ (by decide) (by decide)).2.1.mpr
        (by decide)⟩

/-! ## Invariants of reachable states -/

theorem step_taggedByRoom (s : Storage) (op : Op) (h : TaggedByRoom s) :
    TaggedByRoom (step s op).1 := by
  intro r ms hms m hm
  cases op with
  | createChat name newID now =>
    by_cases hx : r = newID
    · subst hx
      simp only [step, CreateChat, GoMap.get_set_self, Option.some.injEq] at hms
      subst hms
      simp at hm
    · simp only [step, CreateChat, GoMap.get_set_ne _ _ _ _ hx] at hms
      exact h r ms hms m hm
  | getChat chatID => exact h r ms hms m hm
  | listChats => exact h r ms hms m hm
  | getMessages chatID => exact h r ms hms m hm
  | addMessage chatID username content newID now =>
    simp only [step, AddMessage] at hms
    cases hc : s.chats.get chatID with
    | none =>
      simp only [hc] at hms
      exact h r ms hms m hm
    | some c0 =>
      simp only [hc] at hms
      by_cases hx : r = chatID
      · subst hx
        simp only [GoMap.get_set_self, Option.some.injEq] at hms
        subst hms
        rcases List.mem_append.mp hm with hm | hm
        · cases hg : s.messages.get r with
          | none => simp [hg] at hm
          | some old =>
            simp only [hg, Option.getD_some] at hm
            exact h r old hg m hm
        · simp only [List.mem_singleton] at hm
          subst hm
          rfl
      · simp only [GoMap.get_set_ne _ _ _ _ hx] at hms
        exact h r ms hms m hm

theorem run_taggedByRoom (ops : List Op) (s : Storage) (h : TaggedByRoom s) :
    TaggedByRoom (run s ops) := by
  induction ops generalizing s with
  | nil => exact h
  | cons op ops ih => exact ih _ (step_taggedByRoom s op h)

theorem reachable_taggedByRoom (s : Storage) (h : Reachable s) : TaggedByRoom s := by
  obtain ⟨ops, rfl⟩ := h
  exact run_taggedByRoom ops NewStorage
    (fun r ms hms => by simp [NewStorage, GoMap.get] at hms)

/-- C12: in every state reachable from `NewStorage` by any sequence of the five
storage calls, the ids of the room registry are exactly the ids that have a
message sequence; so `GetMessages(id)` reports exists = true if and only if
`GetChat(id)` does, and every message in the sequence that `GetMessages(r)`
returns has `ChatID = r`. -/
theorem registry_and_messages_agree (s : Storage) (h : Reachable s) :
    (∀ x : String, x ∈ s.chats.keys ↔ x ∈ s.messages.keys) ∧
    (∀ x : String, (GetMessages s x).2 = true ↔ (GetChat s x).2 = true) ∧
    (∀ (r : String) (ms : List Message), GetMessages s r = (some ms, true) →
      ∀ m ∈ ms, m.ChatID = r) := by
  have hk := reachable_sameKeys s h
  have ht := reachable_taggedByRoom s h
  refine ⟨?_, ?_, ?_⟩
  · intro x
    have h1 := GoMap.get_eq_none_iff s.chats x
    have h2 := GoMap.get_eq_none_iff s.messages x
    constructor
    · intro hx
      by_contra hn
      exact (h1.mp ((hk x).mpr (h2.mpr hn))) hx
    · intro hx
      by_contra hn
      exact (h2.mp ((hk x).mp (h1.mpr hn))) hx
  · intro x
    cases hc : s.chats.get x with
    | none =>
      have hm := (hk x).mp hc
      simp [GetMessages, GetChat, hc, hm]
    | some c0 =>
      cases hm : s.messages.get x with
      | none =>
        have := (hk x).mpr hm
        simp [hc] at this
      | some ms => simp [GetMessages, GetChat, hc, hm]
  · intro r ms hms m hm
    cases hg : s.messages.get r with
    | none => simp [GetMessages, hg] at hms
    | some old =>
      have : old = ms := by simpa [GetMessages, hg] using hms
      subst this
      exact ht r old hg m hm

/-- Witness of C12: the state after creating two rooms, posting to one of them
and to an unknown id, with reads in between. -/
theorem registry_and_messages_agree_witness :
    Reachable (run NewStorage [Op.createChat "General" "r1" 1,
      Op.addMessage "r1" "alice" "hi" "m1" 2, Op.getMessages "r1",
      Op.createChat "Other" "r2" 3, Op.addMessage "nonexistent" "x" "y" "m2" 4,
      Op.listChats, Op.getChat "r2"]) ∧
    ((GetMessages (run NewStorage [Op.createChat "General" "r1" 1,
      Op.addMessage "r1" "alice" "hi" "m1" 2, Op.getMessages "r1",
      Op.createChat "Other" "r2" 3, Op.addMessage "nonexistent" "x" "y" "m2" 4,
      Op.listChats, Op.getChat "r2"]) "r2").2 = true ↔
    (GetChat (run NewStorage [Op.createChat "General" "r1" 1,
      Op.addMessage "r1" "alice" "hi" "m1" 2, Op.getMessages "r1",
      Op.createChat "Other" "r2" 3, Op.addMessage "nonexistent" "x" "y" "m2" 4,
      Op.listChats, Op.getChat "r2"]) "r2").2 = true) :=
  ⟨⟨_, rfl⟩,
    (registry_and_messages_agree _ ⟨[Op.createChat "General" "r1" 1,
      Op.addMessage "r1" "alice" "hi" "m1" 2, Op.getMessages "r1",
      Op.createChat "Other" "r2" 3, Op.addMessage "nonexistent" "x" "y" "m2" 4,
      Op.listChats, Op.getChat "r2"], rfl⟩).2.1 "r2"⟩

/-! ## Frame properties -/

theorem run_chats_get_of_no_creates (ops : List Op) (s : Storage) (x : String)
    (h : ∀ op ∈ ops, Op.creates x op = false) :
    (run s ops).chats.get x = s.chats.get x := by
  induction ops generalizing s with
  | nil => rfl
  | cons op ops ih =>
    simp only [run]
    rw [ih _ (fun o ho => h o (List.mem_cons_of_mem _ ho)),
      step_chats_get_of_ne s op x (h op (List.mem_cons_self _ _))]

theorem fresh_not_creates (s : Storage) (op : Op) (x : String)
    (hx : s.chats.get x ≠ none) (hf : Op.fresh s op = true) :
    Op.creates x op = false := by
  cases op with
  | createChat name newID now =>
    have hne : ¬ newID = x := by
      intro e
      subst e
      cases hg : s.chats.get newID with
      | none => exact hx hg
      | some c0 => simp [Op.fresh, GetChat, hg] at hf
    simp [Op.creates, hne]
  | getChat chatID => rfl
  | listChats => rfl
  | addMessage chatID username content newID now => rfl
  | getMessages chatID => rfl

theorem freshIDs_not_creates (ops : List Op) (s : Storage) (x : String)
    (hx : s.chats.get x ≠ none) (hf : freshIDs s ops = true) :
    ∀ op ∈ ops, Op.creates x op = false := by
  induction ops generalizing s with
  | nil =>
    intro op hop
    simp at hop
  | cons o ops ih =>
    simp only [freshIDs, Bool.and_eq_true] at hf
    have h1 := fresh_not_creates s o x hx hf.1
    intro op hop
    rcases List.mem_cons.mp hop with hop | hop
    · subst hop
      exact h1
    · refine ih (step s o).1 ?_ hf.2 op hop
      rw [step_chats_get_of_ne s o x h1]
      exact hx

theorem createChat_fresh_listChats (s : Storage) (name newID : String) (now : Nat)
    (hnew : (GetChat s newID).2 = false) :
    ListChats (CreateChat s name newID now).1
      = ListChats s ++ [(CreateChat s name newID now).2.1] := by
  have hg : s.chats.get newID = none := by
    cases hg : s.chats.get newID with
    | none => rfl
    | some c0 => simp [GetChat, hg] at hnew
  simp [CreateChat, ListChats, GoMap.values, GoMap.set_of_get_none _ _ _ hg]

theorem run_readOnly (ops : List Op) (s : Storage)
    (h : ∀ op ∈ ops, Op.readOnly op = true) : run s ops = s := by
  induction ops generalizing s with
  | nil => rfl
  | cons op ops ih =>
    have h1 := h op (List.mem_cons_self _ _)
    have h2 : (step s op).1 = s := by
      cases op with
      | createChat name newID now => simp [Op.readOnly] at h1
      | addMessage chatID username content newID now => simp [Op.readOnly] at h1
      | getChat chatID => rfl
      | listChats => rfl
      | getMessages chatID => rfl
    simp only [run, h2]
    exact ih s (fun o ho => h o (List.mem_cons_of_mem _ ho))

/-- C13: the store only grows and calls touch only their target.  In every
store state (so in every reachable one, `NewStorage` included):
(i) if the id given to `CreateChat` is not in the registry, the call leaves
the `GetChat` and `GetMessages` results of every existing room as they were
and adds exactly one room, the one it returns;
(ii) `AddMessage` on `r` succeeds exactly when `r` is a room, and then it
leaves the registry as it was, leaves the `GetMessages` result of every other
id as it was, and appends the returned message to the sequence of `r`, which
is one longer and starts with the previous one;
(iii) `GetChat`, `ListChats` and `GetMessages` leave the store as it was, and
so does any sequence of them;
hence, along any sequence of calls whose `CreateChat` calls are given ids not
in the registry, every existing room is still returned unaltered by `GetChat`,
and its earlier message sequence is an initial segment of the later one, so
its message count does not decrease. -/
theorem store_only_grows (s : Storage) (name newID : String) (now : Nat)
    (r u c mid : String) (t : Nat) (ops : List Op) :
    ((GetChat s newID).2 = false →
      (∀ x : String, (GetChat s x).2 = true →
        GetChat (CreateChat s name newID now).1 x = GetChat s x ∧
        GetMessages (CreateChat s name newID now).1 x = GetMessages s x) ∧
      (ListChats (CreateChat s name newID now).1).Perm
        ((CreateChat s name newID now).2.1 :: ListChats s) ∧
      (ListChats (CreateChat s name newID now).1).length
        = (ListChats s).length + 1 ∧
      GetChat (CreateChat s name newID now).1 newID
        = (some (CreateChat s name newID now).2.1, true)) ∧
    (((AddMessage s r u c mid t).2.1 ≠ none ↔ (GetChat s r).2 = true) ∧
      ((GetChat s r).2 = true →
        (AddMessage s r u c mid t).1.chats = s.chats ∧
        ListChats (AddMessage s r u c mid t).1 = ListChats s ∧
        (∀ x : String, GetChat (AddMessage s r u c mid t).1 x = GetChat s x) ∧
        (∀ x : String, x ≠ r →
          GetMessages (AddMessage s r u c mid t).1 x = GetMessages s x) ∧
        (∃ m : Message, (AddMessage s r u c mid t).2.1 = some m ∧
          GetMessages (AddMessage s r u c mid t).1 r
            = (some (((GetMessages s r).1.getD []) ++ [m]), true)) ∧
        ((GetMessages s r).1.getD [])
          <+: ((GetMessages (AddMessage s r u c mid t).1 r).1.getD []) ∧
        ((GetMessages (AddMessage s r u c mid t).1 r).1.getD []).length
          = ((GetMessages s r).1.getD []).length + 1)) ∧
    ((∀ x : String, (step s (.getChat x)).1 = s ∧ (step s (.getMessages x)).1 = s) ∧
      (step s .listChats).1 = s ∧
      (∀ reads : List Op, (∀ op ∈ reads, Op.readOnly op = true) →
        run s reads = s)) ∧
    (freshIDs s ops = true →
      (∀ (x : String) (ch : Chat), GetChat s x = (some ch, true) →
        GetChat (run s ops) x = (some ch, true)) ∧
      (∀ (x : String) (L : List Message), (GetChat s x).2 = true →
        GetMessages s x = (some L, true) →
        ∃ L2 : List Message, GetMessages (run s ops) x = (some L2, true) ∧
          L <+: L2 ∧ L.length ≤ L2.length)) := by
  have hsome : ∀ x : String, (GetChat s x).2 = true → s.chats.get x ≠ none := by
    intro x hx hg
    simp [GetChat, hg] at hx
  refine ⟨?_, ⟨?_, ?_⟩, ⟨fun x => ⟨rfl, rfl⟩, rfl, fun reads h => run_readOnly reads s h⟩, ?_⟩
  · intro hnew
    have hgnew : s.chats.get newID = none := by
      cases hg : s.chats.get newID with
      | none => rfl
      | some c0 => simp [GetChat, hg] at hnew
    refine ⟨?_, ?_, ?_, ?_⟩
    · intro x hx
      have hne : x ≠ newID := by
        intro e
        subst e
        exact hsome x hx hgnew
      simp [CreateChat, GetChat, GetMessages, GoMap.get_set_ne _ _ _ _ hne]
    · rw [createChat_fresh_listChats s name newID now hnew]
      exact List.perm_append_singleton _ _
    · rw [createChat_fresh_listChats s name newID now hnew]
      simp
    · simp [CreateChat, GetChat, GoMap.get_set_self]
  · cases hg : s.chats.get r <;> simp [AddMessage, GetChat, hg]
  · intro hr
    cases hg : s.chats.get r with
    | none => exact absurd hg (hsome r hr)
    | some c0 =>
      have hm : GetMessages (AddMessage s r u c mid t).1 r
          = (some (((GetMessages s r).1.getD []) ++ [⟨mid, r, u, c, t⟩]), true) := by
        cases hmg : s.messages.get r <;>
          simp [AddMessage, hg, GetMessages, GoMap.get_set_self, hmg]
      refine ⟨by simp [AddMessage, hg], by simp [AddMessage, hg, ListChats],
        fun x => by simp [AddMessage, hg, GetChat], ?_, ?_, ?_, ?_⟩
      · intro x hx
        simp [AddMessage, hg, GetMessages, GoMap.get_set_ne _ _ _ _ hx]
      · exact ⟨⟨mid, r, u, c, t⟩, by simp [AddMessage, hg], hm⟩
      · rw [hm]
        exact ⟨[⟨mid, r, u, c, t⟩], rfl⟩
      · rw [hm]
        simp
  · intro hops
    constructor
    · intro x ch hx
      have hx2 : (GetChat s x).2 = true := by rw [hx]
      have hnc := freshIDs_not_creates ops s x (hsome x hx2) hops
      have hrun := run_chats_get_of_no_creates ops s x hnc
      simp only [GetChat, hrun]
      exact hx
    · intro x L hx hL
      have hnc := freshIDs_not_creates ops s x (hsome x hx) hops
      have hm : s.messages.get x = some L := by
        cases h : s.messages.get x with
        | none => simp [GetMessages, h] at hL
        | some ms => simpa [GetMessages, h] using hL
      obtain ⟨h1, _⟩ := run_messages_get_append ops s x L (hsome x hx) hm hnc
      exact ⟨L ++ appended x s ops, by simp [GetMessages, h1], ⟨_, rfl⟩, by simp⟩

/-- Witness of C13.  On `NewStorage`: the first `CreateChat` adds exactly one
room, and a sequence of lookups leaves the empty store as it was.  On the
one-room store: a second room is created, then both rooms are posted to; the
first room is still there, with one message more. -/
theorem store_only_grows_witness :
    ((GetChat NewStorage "r1").2 = false ∧
      (ListChats (CreateChat NewStorage "General" "r1" 1).1).length
        = (ListChats NewStorage).length + 1 ∧
      run NewStorage [Op.getChat "r1", Op.listChats, Op.getMessages "r1"]
        = NewStorage) ∧
    ((GetChat demoStore "r2").2 = false ∧
      (ListChats (CreateChat demoStore "Other" "r2" 2).1).length
        = (ListChats demoStore).length + 1) ∧
    ((GetChat demoStore "r1").2 = true ∧
      ((GetMessages (AddMessage demoStore "r1" "alice" "hi" "m1" 3).1 "r1").1.getD
          []).length
        = ((GetMessages demoStore "r1").1.getD []).length + 1) ∧
    (freshIDs demoStore [Op.createChat "Other" "r2" 2,
      Op.addMessage "r1" "alice" "hi" "m1" 3, Op.getMessages "r1",
      Op.addMessage "r2" "bob" "hey" "m2" 4] = true ∧
      GetChat (run demoStore [Op.createChat "Other" "r2" 2,
      Op.addMessage "r1" "alice" "hi" "m1" 3, Op.getMessages "r1",
      Op.addMessage "r2" "bob" "hey" "m2" 4]) "r1" = (some ⟨"r1", "General", 1⟩, true) ∧
      GetMessages (run demoStore [Op.createChat "Other" "r2" 2,
      Op.addMessage "r1" "alice" "hi" "m1" 3, Op.getMessages "r1",
      Op.addMessage "r2" "bob" "hey" "m2" 4]) "r1"
        = (some [⟨"m1", "r1", "alice", "hi", 3⟩], true)) :=
  ⟨⟨by decide,
      ((store_only_grows NewStorage "General" "r1" 1 "r1" "alice" "hi" "m1" 2
        []).1 (by decide)).2.2.1,
      (store_only_grows NewStorage "General" "r1" 1 "r1" "alice" "hi" "m1" 2
        []).2.2.1.2.2 [Op.getChat "r1", Op.listChats, Op.getMessages "r1"]
          (by decide)⟩,
    ⟨by decide,
      ((store_only_grows demoStore "Other" "r2" 2 "r1" "alice" "hi" "m1" 3
        [Op.createChat "Other" "r2" 2,
      Op.addMessage "r1" "alice" "hi" "m1" 3, Op.getMessages "r1",
      Op.addMessage "r2" "bob" "hey" "m2" 4]).1 (by decide)).2.2.1⟩,
    ⟨by decide,
      ((store_only_grows demoStore "Other" "r2" 2 "r1" "alice" "hi" "m1" 3
        [Op.createChat "Other" "r2" 2,
      Op.addMessage "r1" "alice" "hi" "m1" 3, Op.getMessages "r1",
      Op.addMessage "r2" "bob" "hey" "m2" 4]).2.1.2 (by decide)).2.2.2.2.2.2⟩,
    ⟨by decide,
      ((store_only_grows demoStore "Other" "r2" 2 "r1" "alice" "hi" "m1" 3
        [Op.createChat "Other" "r2" 2,
      Op.addMessage "r1" "alice" "hi" "m1" 3, Op.getMessages "r1",
      Op.addMessage "r2" "bob" "hey" "m2" 4]).2.2.2 (by decide)).1 "r1" ⟨"r1", "General", 1⟩ (by decide),
      by decide⟩⟩

end ChatApp
